import Mathlib

/-!
Verification development for the recursive slide-loading core of
`packages/parser/src/fs.ts` (the `load` / `loadMarkdown` / `loadSlide`
functions).  The TypeScript code is shallowly embedded: the mutually
recursive pair `loadMarkdown` / `loadSlide` (plus the per-slide loop of
`loadMarkdown`, extracted here as `loadSlides`) is modelled with a fuel
parameter, JavaScript objects holding frontmatter are modelled as
association lists with JS-spread merge semantics, and the shared mutable
state (`markdownFiles`, `watchFiles`, `slides`) is passed explicitly as a
`LoadState`.  Thrown JS exceptions are modelled as `Except` errors that
carry the state at the point of the throw, since in the source the shared
state mutations performed before a throw survive the throw.

External collaborators that are not part of this file's source
(`parse`, `parseRangeString` from `./core`, `node:path`, `@antfu/utils`'
`slash`, the filesystem) are modelled abstractly, as documented on each
definition.
-/

set_option maxHeartbeats 2000000

/-- A frontmatter value.  Frontmatter in the source is an untyped
`Record<string, unknown>`; we model values with a small closed variant
whose JavaScript truthiness is meaningful. -/
inductive Val where
  | str (s : String)
  | bool (b : Bool)
  | num (n : Int)
  | null
deriving DecidableEq, Repr

/-- JavaScript truthiness of a frontmatter value ("" and 0 and null are
falsy, everything else truthy). -/
def Val.truthy : Val → Bool
  | .str s => s ≠ ""
  | .bool b => b
  | .num n => n ≠ 0
  | .null => false

/-- A JS object used as frontmatter: an association list with unique keys
(in insertion order); lookup takes the first matching key. -/
abbrev Frontmatter := List (String × Val)

/-- Property read `fm[k]`: `none` models JS `undefined`. -/
def fmGet (fm : Frontmatter) (k : String) : Option Val :=
  (fm.find? (fun kv => kv.1 == k)).map (·.2)

/-- Truthiness of `fm[k]` (JS `if (fm.k)`): missing keys are falsy. -/
def fmTruthy (fm : Frontmatter) (k : String) : Bool :=
  match fmGet fm k with
  | some v => v.truthy
  | none => false

/-- JS object spread `{...a, ...b}`: every key of `a` (keeping its
position, with `b`'s value when `b` also defines it) followed by the keys
only `b` defines. -/
def fmMerge (a b : Frontmatter) : Frontmatter :=
  a.map (fun kv =>
    match fmGet b kv.1 with
    | some v => (kv.1, v)
    | none => kv)
  ++ b.filter (fun kv => (fmGet a kv.1).isNone)

/-- JS `delete fm.k`. -/
def fmDelete (fm : Frontmatter) (k : String) : Frontmatter :=
  fm.filter (fun kv => kv.1 != k)

/-- One entry of a document's `errors` array (`SlidevMarkdown['errors']`). -/
structure SlideError where
  row : Nat
  message : String
deriving DecidableEq, Repr

/-- A raw slide as produced by the (external) `parse` tokenizer
(`SourceSlideInfo`): the fields of the `@slidev/types` interface that
`fs.ts` reads.  The `imports` annotation that `loadMarkdown` pushes
onto importer slides is modelled separately as an append-only log in
`LoadState.importsLog`, because it is a mutation of a shared object graph
that no other part of the loader ever reads. -/
structure SourceSlideInfo where
  filepath : String
  frontmatter : Frontmatter := []
  content : String := ""
  raw : String := ""
  note : Option String := none
  title : Option String := none
  level : Option Nat := none
  revision : Nat := 0
  frontmatterRaw : Option String := none
  start : Nat := 0
deriving DecidableEq, Repr

/-- A parsed document (`SlidevMarkdown`): the fields `fs.ts` reads and
writes. -/
structure SlidevMarkdown where
  filepath : String
  slides : List SourceSlideInfo
  errors : List SlideError := []
deriving DecidableEq, Repr

/-- A resolved output slide (`SlideInfo`): exactly the fields the
`slides.push({...})` of `loadSlide` fills in. -/
structure SlideInfo where
  frontmatter : Frontmatter
  content : String
  revision : Nat
  frontmatterRaw : Option String
  note : Option String
  title : Option String
  level : Option Nat
  index : Nat
  importChain : Option (List SourceSlideInfo)
  source : SourceSlideInfo
deriving DecidableEq, Repr

/-- The fetch-and-parse result for one path, as provided by the test
environment: the slide list and pre-existing parse errors of the document
at that path.  `parse` is an external collaborator (it lives in
`./core`, outside this excerpt), so documents are modelled pre-parsed. -/
structure ParsedDoc where
  slides : List SourceSlideInfo
  errors : List SlideError := []
deriving DecidableEq, Repr

/-- The world one `load` call runs against: the project root, the
documents reachable by fetch+parse (both local files and remote urls),
and the set of local paths for which `existsSync` answers true. -/
structure Env where
  userRoot : String
  docs : List (String × ParsedDoc)
  fsExists : List String
deriving DecidableEq, Repr

/-- The shared mutable state closed over by `loadMarkdown` / `loadSlide`:
the path-keyed document memo `markdownFiles`, the `watchFiles` keys
(only their initialization `watchFiles[path] = new Set()` occurs in this
excerpt, so we keep the key list), and the output `slides` sequence.
`sourceCalls` instruments every invocation of the injected source
function `loadSource`, in call order, and `importsLog` records each
`directImporter.imports.push(subSlide)` as an (importer, imported) pair. -/
structure LoadState where
  markdownFiles : List (String × SlidevMarkdown) := []
  watchFiles : List String := []
  slides : List SlideInfo := []
  sourceCalls : List String := []
  importsLog : List (SourceSlideInfo × SourceSlideInfo) := []
deriving DecidableEq, Repr

/-- Why a run of the loader stopped abnormally: a thrown JS error
(carrying its message) or fuel exhaustion (a model artifact standing for
non-termination of the unguarded recursion). -/
inductive LoadEx where
  | thrown (msg : String)
  | fuelOut
deriving DecidableEq, Repr

/-- Results of the loader functions: either a value or an abnormal stop.
An abnormal stop carries the `LoadState` at the moment of the throw:
in the source the shared state is mutable and mutations performed before
a throw survive it. -/
abbrev LRes (α : Type) := Except (LoadEx × LoadState) α

instance {ε α : Type} [DecidableEq ε] [DecidableEq α] : DecidableEq (Except ε α) :=
  fun a b =>
    match a, b with
    | .ok x, .ok y =>
      if h : x = y then .isTrue (by rw [h])
      else .isFalse (by intro hc; cases hc; exact h rfl)
    | .error x, .error y =>
      if h : x = y then .isTrue (by rw [h])
      else .isFalse (by intro hc; cases hc; exact h rfl)
    | .ok _, .error _ => .isFalse (by intro hc; cases hc)
    | .error _, .ok _ => .isFalse (by intro hc; cases hc)

/-- String prefix test (several core `String` functions are opaque to
kernel reduction, so string manipulation is done on the character
lists). -/
def strStarts (s pre : String) : Bool :=
  pre.data.isPrefixOf s.data

/-- Split a character list at every occurrence of `sep`, JS
`String.prototype.split` style: `n` separators yield `n + 1`
components. -/
def chSplit (sep : Char) : List Char → List (List Char)
  | [] => [[]]
  | c :: cs =>
    match chSplit sep cs with
    | [] => [[]]
    | h :: t => if c = sep then [] :: h :: t else (c :: h) :: t

/-- JS `s.split(sep)` for one-character separators. -/
def strSplitCh (s : String) (sep : Char) : List String :=
  (chSplit sep s.data).map String.mk

/-- Join components with a one-character separator (inverse of
`strSplitCh`). -/
def chJoin (sep : Char) : List String → String
  | [] => ""
  | [l] => l
  | l :: ls => l ++ String.mk [sep] ++ chJoin sep ls

/-- Drop the first `n` characters of a string. -/
def strDrop (s : String) (n : Nat) : String :=
  String.mk (s.data.drop n)

def strToNatAux : List Char → Nat → Option Nat
  | [], acc => some acc
  | c :: cs, acc =>
    if c.isDigit then strToNatAux cs (acc * 10 + (c.toNat - 48)) else none

/-- Parse a decimal numeral. -/
def strToNum (s : String) : Option Nat :=
  match s.data with
  | [] => none
  | l => strToNatAux l 0

/-- Test for the regex `/^https?:\/\//` used throughout `fs.ts`. -/
def isHttp (s : String) : Bool :=
  strStarts s "http://" || strStarts s "https://"

/-- Model of `slash` from `@antfu/utils` (external): backslashes become
forward slashes. -/
def slash (s : String) : String :=
  String.mk (s.data.map (fun c => if c = '\\' then '/' else c))

/-- Model of `node:path`'s `dirname` (external) for already-slashed
paths: everything before the last `/` separator, `.` when there is
none. -/
def nodeDirname (p : String) : String :=
  let parts := strSplitCh p '/'
  if parts.length ≤ 1 then "." else chJoin '/' parts.dropLast

/-- Model of `node:path`'s `resolve(base, p)` (external) for an absolute
`base` and a dot-free `p`: `p` itself when absolute, otherwise `p`
joined under `base`. -/
def nodeResolve (base p : String) : String :=
  if strStarts p "/" then p else base ++ "/" ++ p

/-- The destructuring `const [rawPath, rangeRaw] = src.split('#')` of
`loadSlide`: JS `split` cuts at every `#`, and the destructuring keeps
the first component as the path and the second (when present) as the
range, discarding any further components. -/
def srcParts (s : String) : String × Option String :=
  let parts := strSplitCh s '#'
  (parts.headD "", parts[1]?)

/-- The path-resolution expression of `loadSlide` (lines 117-125):
http(s) urls verbatim; a leading `/` resolves under `userRoot` with the
slash stripped; anything else resolves under the directory of the
current slide's owning file; local results are slash-normalized. -/
def resolveSrcPath (userRoot slideFilepath rawPath : String) : String :=
  if isHttp rawPath then rawPath
  else slash
    (if strStarts rawPath "/" then nodeResolve userRoot (strDrop rawPath 1)
     else nodeResolve (nodeDirname slideFilepath) rawPath)

/-- Modelled from the spec: `parseRangeString` lives in `./core`, which
is not part of this excerpt.  Per §6, no range (or a falsy one) selects
`1..slideCount` in order, and a range expression selects a list of
1-based indices; we model the expression minimally as a comma-separated
list of numbers. -/
def parseRangeString (total : Nat) (range : Option String) : List Nat :=
  match range with
  | none => List.range' 1 total
  | some r => if r = "" then List.range' 1 total
              else (strSplitCh r ',').filterMap strToNum

/-- The composite of the injected `loadSource` fetch and the external
`parse` (line 79-80 of `fs.ts`): fetching a path the environment does
not know rejects (file read or network failure); parsing installs the
document's path on the document and each of its slides. -/
def fetchParse (env : Env) (path : String) : Except String SlidevMarkdown :=
  match (env.docs.find? (fun kv => kv.1 == path)).map (·.2) with
  | some d =>
    .ok { filepath := path,
          slides := d.slides.map (fun s => { s with filepath := path }),
          errors := d.errors }
  | none => .error ("ENOENT: no such file or unreachable url: " ++ path)

/-- Memo lookup `markdownFiles[path]`. -/
def lookupDoc (st : LoadState) (path : String) : Option SlidevMarkdown :=
  (st.markdownFiles.find? (fun kv => kv.1 == path)).map (·.2)

/-- The memo entry for `path`, defaulting to `d` (used where the source
returns the live `md` object, which is the memo entry). -/
def getMdD (st : LoadState) (path : String) (d : SlidevMarkdown) : SlidevMarkdown :=
  (lookupDoc st path).getD d

/-- The mutation `md.errors ??= []; md.errors.push(err)` of the document
at `path`: in the source `md` is the very object stored in the memo, so
pushing onto its `errors` is visible through `markdownFiles`. -/
def pushError (st : LoadState) (path : String) (err : SlideError) : LoadState :=
  { st with markdownFiles := st.markdownFiles.map (fun kv =>
      if kv.1 == path then (kv.1, { kv.2 with errors := kv.2.errors ++ [err] }) else kv) }

/-- The keys of the document memo. -/
def memoKeys (st : LoadState) : List String :=
  st.markdownFiles.map (·.1)

mutual

/-- `loadMarkdown(path, range?, frontmatterOverride?, importers?)`
(lines 71-105): on a memo miss, call the injected source function
(logged in `sourceCalls`), parse, memoize and initialize the watch set;
then run the per-slide loop (`loadSlides`) over the indices selected by
`parseRangeString`, and return the (possibly error-enriched) document. -/
def loadMarkdown (env : Env) (fuel : Nat) (path : String) (range : Option String)
    (frontmatterOverride : Option Frontmatter) (importers : Option (List SourceSlideInfo))
    (st : LoadState) : LRes (SlidevMarkdown × LoadState) :=
  match fuel with
  | 0 => .error (.fuelOut, st)
  | f + 1 =>
    let fetched : LRes (SlidevMarkdown × LoadState) :=
      match lookupDoc st path with
      | some md => .ok (md, st)
      | none =>
        let st1 : LoadState := { st with sourceCalls := st.sourceCalls ++ [path] }
        match fetchParse env path with
        | .error msg => .error (.thrown msg, st1)
        | .ok md =>
          .ok (md, { st1 with
            markdownFiles := st1.markdownFiles ++ [(path, md)],
            watchFiles := st1.watchFiles ++ [path] })
    match fetched with
    | .error e => .error e
    | .ok (md, st1) =>
      match loadSlides env f md path (parseRangeString md.slides.length range)
          frontmatterOverride importers st1 with
      | .error e => .error e
      | .ok st2 => .ok (getMdD st2 path md, st2)
termination_by structural fuel

/-- The `for (const index of parseRangeString(...))` loop of
`loadMarkdown` (lines 85-102): look the slide up, resolve it through
`loadSlide` inside a per-slide try/catch (a thrown error is recorded on
the document at the slide's start row and the loop continues), and on
success record the slide in the direct importer's `imports`. -/
def loadSlides (env : Env) (fuel : Nat) (md : SlidevMarkdown) (mdPath : String)
    (indices : List Nat) (frontmatterOverride : Option Frontmatter)
    (importers : Option (List SourceSlideInfo)) (st : LoadState) : LRes LoadState :=
  match fuel with
  | 0 => .error (.fuelOut, st)
  | f + 1 =>
    match indices with
    | [] => .ok st
    | index :: rest =>
      match md.slides[index - 1]? with
      | none =>
        -- An out-of-range index makes `loadSlide(md, undefined, ...)` throw,
        -- and the catch handler itself then throws reading `subSlide.start`,
        -- so the error escapes the loop.
        .error (.thrown "TypeError: cannot read properties of undefined", st)
      | some subSlide =>
        match loadSlide env f mdPath subSlide frontmatterOverride importers st with
        | .error (.thrown e, stE) =>
          let st1 := pushError stE mdPath
            { row := subSlide.start, message := "Error when loading slide: " ++ e }
          loadSlides env f md mdPath rest frontmatterOverride importers st1
        | .error (.fuelOut, stE) => .error (.fuelOut, stE)
        | .ok st1 =>
          let st2 :=
            match importers.bind List.getLast? with
            | some directImporter =>
              { st1 with importsLog := st1.importsLog ++ [(directImporter, subSlide)] }
            | none => st1
          loadSlides env f md mdPath rest frontmatterOverride importers st2
termination_by structural fuel

/-- `loadSlide(md, slide, frontmatterOverride?, importChain?)`
(lines 107-161): skip disabled/hidden slides; a truthy `src` is split
into path and range, the path resolved, the override merged shallowly
over the slide's frontmatter with `src` deleted, then either a
missing-file error is recorded (local non-existent path) or the loader
recurses with the import chain extended by this slide; otherwise the
slide is emitted with `index` = current output length. -/
def loadSlide (env : Env) (fuel : Nat) (mdPath : String) (slide : SourceSlideInfo)
    (frontmatterOverride : Option Frontmatter) (importChain : Option (List SourceSlideInfo))
    (st : LoadState) : LRes LoadState :=
  match fuel with
  | 0 => .error (.fuelOut, st)
  | f + 1 =>
    if fmTruthy slide.frontmatter "disabled" || fmTruthy slide.frontmatter "hide" then
      .ok st
    else if fmTruthy slide.frontmatter "src" then
      match fmGet slide.frontmatter "src" with
      | some (Val.str s) =>
        let rawPath := (srcParts s).1
        let rangeRaw := (srcParts s).2
        let path := resolveSrcPath env.userRoot slide.filepath rawPath
        let mergedFrontmatter :=
          fmDelete (fmMerge slide.frontmatter (frontmatterOverride.getD [])) "src"
        if !isHttp path && !(env.fsExists.contains path) then
          .ok (pushError st mdPath
            { row := slide.start, message := "Imported markdown file not found: " ++ path })
        else
          match loadMarkdown env f path rangeRaw (some mergedFrontmatter)
              (some (match importChain with
                     | some c => c ++ [slide]
                     | none => [slide])) st with
          | .error e => .error e
          | .ok (_, st1) => .ok st1
      | _ =>
        -- A truthy non-string `src` (e.g. `src: true`) throws in
        -- `slide.frontmatter.src.split('#')`.
        .error (.thrown "TypeError: slide.frontmatter.src.split is not a function", st)
    else
      .ok { st with slides := st.slides ++ [{
        frontmatter := fmMerge slide.frontmatter (frontmatterOverride.getD []),
        content := slide.content,
        revision := slide.revision,
        frontmatterRaw := slide.frontmatterRaw,
        note := slide.note,
        title := slide.title,
        level := slide.level,
        index := st.slides.length,
        importChain := importChain,
        source := slide }] }
termination_by structural fuel

end

/-- Test `v == null` / `??=` applicability of `fm[k]` (assign only when
currently absent, `undefined` or `null`). -/
def fmNullish (fm : Frontmatter) (k : String) : Bool :=
  match fmGet fm k with
  | none => true
  | some .null => true
  | some _ => false

/-- The aggregate returned by `load` (`LoadedSlidevData`), plus the
`sourceCalls` instrumentation of the injected source function.
`features` keeps the exact string handed to the external
`detectFeatures`. -/
structure LoadedSlidevData where
  slides : List SlideInfo
  entry : SlidevMarkdown
  headmatter : Frontmatter
  features : String
  markdownFiles : List (String × SlidevMarkdown)
  watchFiles : List String
  sourceCalls : List String
deriving DecidableEq, Repr

/-- `load(userRoot, filepath, sources, mode)` (lines 30-178), with
`userRoot` and the injected sources folded into `env`.  Line 48 fetches
the entry text up front (its result is used only for preparser-extension
detection, which does not apply here because no extension loader is
registered, as in the library's default state); then the entry document
is loaded through `loadMarkdown` under the slashed path, and headmatter
and features are derived from the result. -/
def load (env : Env) (filepath : String) (fuel : Nat) : LRes LoadedSlidevData :=
  let st0 : LoadState := { sourceCalls := [filepath] }
  match fetchParse env filepath with
  | .error msg => .error (.thrown msg, st0)
  | .ok _ =>
    match loadMarkdown env fuel (slash filepath) none none none st0 with
    | .error e => .error e
    | .ok (entry, st1) =>
      let headmatter0 : Frontmatter :=
        match entry.slides.head? with
        | some s => s.frontmatter
        | none => []
      let headmatter :=
        match st1.slides.head?.bind (·.title) with
        | some t =>
          if t ≠ "" && fmNullish headmatter0 "title" then
            fmDelete headmatter0 "title" ++ [("title", Val.str t)]
          else headmatter0
        | none => headmatter0
      .ok { slides := st1.slides,
            entry := entry,
            headmatter := headmatter,
            features := String.join (st1.slides.map (fun s => s.source.raw)),
            markdownFiles := st1.markdownFiles,
            watchFiles := st1.watchFiles,
            sourceCalls := st1.sourceCalls }

/-! Invariant machinery.  The shared mutable state survives a JS throw, so
every result (normal or thrown) has a final state. -/

/-- The state in which a `loadSlides` / `loadSlide` call left the world. -/
def finalState : LRes LoadState → LoadState
  | .ok st => st
  | .error (_, st) => st

/-- The state in which a `loadMarkdown` call left the world. -/
def finalStateMd : LRes (SlidevMarkdown × LoadState) → LoadState
  | .ok (_, st) => st
  | .error (_, st) => st

/-- Every output slide's `index` field equals its position. -/
def indexedOk (l : List SlideInfo) : Prop :=
  ∀ i : Nat, ∀ h : i < l.length, l[i].index = i

/-- An emitted slide carries no truthy `src`, `disabled` or `hide` in its
merged frontmatter. -/
def slideClean (s : SlideInfo) : Prop :=
  fmTruthy s.frontmatter "src" = false ∧
  fmTruthy s.frontmatter "disabled" = false ∧
  fmTruthy s.frontmatter "hide" = false

def slidesClean (l : List SlideInfo) : Prop :=
  ∀ s ∈ l, slideClean s

/-- A frontmatter override as generated at an import site: `src` deleted,
and neither `disabled` nor `hide` truthy (the importer passed the
disabled/hide guard before building it). -/
def ovClean (ov : Option Frontmatter) : Prop :=
  ∀ fm, ov = some fm →
    fmGet fm "src" = none ∧
    fmTruthy fm "disabled" = false ∧
    fmTruthy fm "hide" = false

/-- 1 when `p` is memoized in `st`. -/
def memB (st : LoadState) (p : String) : Nat :=
  if p ∈ memoKeys st then 1 else 0

/-- What one loader call preserves, relating the state before to the
state after (normal or thrown): the source-call log only grows; index
correctness of the output is preserved; cleanliness of the output is
preserved under a clean override; and (for paths whose fetch+parse
succeeds) a source call for `p` is only ever made together with `p`
entering the memo, so per path the call count grows by at most one
memo admission. -/
def Pres (env : Env) (ov : Option Frontmatter) (st st' : LoadState) : Prop :=
  (∃ t, st'.sourceCalls = st.sourceCalls ++ t) ∧
  (indexedOk st.slides → indexedOk st'.slides) ∧
  (ovClean ov → slidesClean st.slides → slidesClean st'.slides) ∧
  (∀ p, (fetchParse env p).isOk = true →
    st'.sourceCalls.count p + memB st p ≤ st.sourceCalls.count p + memB st' p)

/-! Frontmatter lemmas: the JS-spread merge is a key-by-key right-biased
override, and `delete` removes the key. -/

theorem fmGet_nil (k : String) : fmGet [] k = none := rfl

theorem fmGet_cons (kv : String × Val) (fm : Frontmatter) (k : String) :
    fmGet (kv :: fm) k = if kv.1 == k then some kv.2 else fmGet fm k := by
  cases h : kv.1 == k <;> simp [fmGet, List.find?, h]

theorem fmGet_append (x y : Frontmatter) (k : String) :
    fmGet (x ++ y) k = (fmGet x k).or (fmGet y k) := by
  induction x with
  | nil => simp [fmGet]
  | cons kv x ih =>
    rw [List.cons_append, fmGet_cons, fmGet_cons]
    cases h : kv.1 == k <;> simp [ih]

theorem fmGet_map_merge (a b : Frontmatter) (k : String) :
    fmGet (a.map (fun kv =>
      match fmGet b kv.1 with
      | some v => (kv.1, v)
      | none => kv)) k = (fmGet a k).map (fun v => (fmGet b k).getD v) := by
  induction a with
  | nil => simp [fmGet]
  | cons kv a ih =>
    have hf1 : ∀ kv' : String × Val,
        ((match fmGet b kv'.1 with
          | some v => (kv'.1, v)
          | none => kv') : String × Val).1 = kv'.1 := by
      intro kv'; cases h : fmGet b kv'.1 <;> simp [h]
    have hf2 : ∀ kv' : String × Val,
        ((match fmGet b kv'.1 with
          | some v => (kv'.1, v)
          | none => kv') : String × Val).2 = (fmGet b kv'.1).getD kv'.2 := by
      intro kv'; cases h : fmGet b kv'.1 <;> simp [h]
    rw [List.map_cons, fmGet_cons, fmGet_cons, hf1 kv]
    cases h : kv.1 == k with
    | false => simp [ih]
    | true =>
      have hk : kv.1 = k := eq_of_beq h
      simp only [hf2 kv, hk]
      cases hbk : fmGet b k <;> simp [hbk]

theorem fmGet_filter_of_none (a b : Frontmatter) (k : String)
    (ha : fmGet a k = none) :
    fmGet (b.filter (fun kv => (fmGet a kv.1).isNone)) k = fmGet b k := by
  induction b with
  | nil => simp
  | cons kv b ih =>
    rw [List.filter_cons, fmGet_cons]
    cases h : kv.1 == k with
    | true =>
      have hk : kv.1 = k := eq_of_beq h
      rw [hk, ha]
      simp [fmGet_cons, hk]
    | false =>
      cases hq : (fmGet a kv.1).isNone <;> simp [fmGet_cons, h, ih]

theorem fmGet_fmMerge (a b : Frontmatter) (k : String) :
    fmGet (fmMerge a b) k = (fmGet b k).or (fmGet a k) := by
  rw [fmMerge, fmGet_append, fmGet_map_merge]
  cases hak : fmGet a k with
  | none => simp [fmGet_filter_of_none a b k hak]
  | some v => cases hbk : fmGet b k <;> simp [hbk]

theorem fmGet_fmDelete_self (fm : Frontmatter) (k : String) :
    fmGet (fmDelete fm k) k = none := by
  induction fm with
  | nil => rfl
  | cons kv fm ih =>
    rw [fmDelete, List.filter_cons]
    cases h : kv.1 == k with
    | true =>
      have : (kv.1 != k) = false := by simp [bne, h]
      rw [this]
      simpa [fmDelete] using ih
    | false =>
      have : (kv.1 != k) = true := by simp [bne, h]
      rw [this]
      simp only [ite_true]
      rw [fmGet_cons, h]
      simpa [fmDelete] using ih

theorem fmGet_fmDelete_ne (fm : Frontmatter) (k k' : String) (h : k' ≠ k) :
    fmGet (fmDelete fm k) k' = fmGet fm k' := by
  induction fm with
  | nil => rfl
  | cons kv fm ih =>
    have ih' : fmGet (List.filter (fun kv => kv.1 != k) fm) k' = fmGet fm k' := by
      simpa [fmDelete] using ih
    rw [fmDelete, List.filter_cons]
    by_cases hq : (kv.1 != k) = true
    · rw [if_pos hq, fmGet_cons, fmGet_cons]
      cases hk : kv.1 == k' <;> simp [ih']
    · rw [if_neg hq, ih', fmGet_cons]
      have hkk : kv.1 = k := by
        have : (kv.1 == k) = true := by
          cases hb : kv.1 == k
          · exact absurd (by simp [bne, hb]) hq
          · rfl
        exact eq_of_beq this
      have hk' : (kv.1 == k') = false := by
        apply beq_eq_false_iff_ne.mpr
        rw [hkk]
        exact fun hc => h hc.symm
      rw [hk']
      simp

theorem fmTruthy_of_get (fm : Frontmatter) (k : String) :
    fmTruthy fm k = ((fmGet fm k).map Val.truthy).getD false := by
  cases h : fmGet fm k <;> simp [fmTruthy, h]

/-- Merged frontmatter is non-truthy at `k` when both sides are. -/
theorem fmTruthy_fmMerge_false (a b : Frontmatter) (k : String)
    (ha : fmTruthy a k = false) (hb : fmTruthy b k = false) :
    fmTruthy (fmMerge a b) k = false := by
  rw [fmTruthy_of_get] at ha hb ⊢
  rw [fmGet_fmMerge]
  cases hbk : fmGet b k with
  | none => simpa using ha
  | some v => rw [hbk] at hb; simpa using hb

/-! Basic lemmas about the invariant components. -/

theorem fmTruthy_congr (a b : Frontmatter) (k : String)
    (h : fmGet a k = fmGet b k) : fmTruthy a k = fmTruthy b k := by
  rw [fmTruthy_of_get, fmTruthy_of_get, h]

theorem fmTruthy_of_get_none (fm : Frontmatter) (k : String)
    (h : fmGet fm k = none) : fmTruthy fm k = false := by
  rw [fmTruthy_of_get, h]
  rfl

theorem indexedOk_nil : indexedOk [] := by
  intro i h
  simp at h

theorem indexedOk_push (l : List SlideInfo) (x : SlideInfo) (h : indexedOk l)
    (hx : x.index = l.length) : indexedOk (l ++ [x]) := by
  intro i hi
  simp only [List.length_append, List.length_singleton] at hi
  by_cases hlt : i < l.length
  · rw [List.getElem_append_left hlt]
    exact h i hlt
  · have hi' : i = l.length := by omega
    subst hi'
    rw [List.getElem_append_right (by omega)]
    simpa using hx

theorem slidesClean_nil : slidesClean [] := by
  intro s hs
  simp at hs

theorem slidesClean_push (l : List SlideInfo) (x : SlideInfo)
    (h : slidesClean l) (hx : slideClean x) : slidesClean (l ++ [x]) := by
  intro s hs
  rcases List.mem_append.mp hs with h1 | h2
  · exact h s h1
  · rw [List.mem_singleton] at h2
    subst h2
    exact hx

theorem lookupDoc_none_iff (st : LoadState) (path : String) :
    lookupDoc st path = none ↔ path ∉ memoKeys st := by
  rw [lookupDoc, memoKeys]
  induction st.markdownFiles with
  | nil => simp
  | cons kv l ih =>
    rw [List.find?]
    cases h : kv.1 == path with
    | true =>
      have hk : kv.1 = path := eq_of_beq h
      simp [hk]
    | false =>
      have hne : kv.1 ≠ path := by
        intro e
        rw [e] at h
        simp at h
      simp only [List.map_cons, List.mem_cons]
      rw [ih]
      constructor
      · intro hl hc
        rcases hc with hc | hc
        · exact hne hc.symm
        · exact hl hc
      · intro hl hc
        exact hl (Or.inr hc)

theorem memoKeys_mono_insert (st : LoadState) (path : String) (md : SlidevMarkdown) :
    memoKeys { st with
      markdownFiles := st.markdownFiles ++ [(path, md)],
      watchFiles := st.watchFiles ++ [path] } = memoKeys st ++ [path] := by
  simp [memoKeys]

theorem memoKeys_pushError (st : LoadState) (path : String) (e : SlideError) :
    memoKeys (pushError st path e) = memoKeys st := by
  simp only [memoKeys, pushError, List.map_map]
  apply List.map_congr_left
  intro kv _
  simp only [Function.comp_apply]
  by_cases h : (kv.1 == path) = true
  · rw [if_pos h]
  · rw [if_neg h]

theorem pres_refl (env : Env) (ov : Option Frontmatter) (st : LoadState) :
    Pres env ov st st :=
  ⟨⟨[], by simp⟩, id, fun _ h => h, fun _ _ => le_rfl⟩

theorem pres_trans (env : Env) (ov : Option Frontmatter) (st1 st2 st3 : LoadState)
    (h1 : Pres env ov st1 st2) (h2 : Pres env ov st2 st3) : Pres env ov st1 st3 := by
  obtain ⟨⟨t1, ht1⟩, hi1, hc1, hn1⟩ := h1
  obtain ⟨⟨t2, ht2⟩, hi2, hc2, hn2⟩ := h2
  refine ⟨⟨t1 ++ t2, by rw [ht2, ht1, List.append_assoc]⟩,
    fun h => hi2 (hi1 h), fun ho h => hc2 ho (hc1 ho h), fun p hp => ?_⟩
  have g1 := hn1 p hp
  have g2 := hn2 p hp
  omega

theorem pres_movOv (env : Env) (ov ov' : Option Frontmatter) (st st' : LoadState)
    (himp : ovClean ov → ovClean ov') (h : Pres env ov' st st') : Pres env ov st st' :=
  ⟨h.1, h.2.1, fun ho => h.2.2.1 (himp ho), h.2.2.2⟩

/-- A step that does not touch the source-call log, the output sequence
or the memo keys preserves everything. -/
theorem pres_sameCore (env : Env) (ov : Option Frontmatter) (st st' : LoadState)
    (hsc : st'.sourceCalls = st.sourceCalls)
    (hsl : st'.slides = st.slides)
    (hmk : memoKeys st' = memoKeys st) : Pres env ov st st' := by
  refine ⟨⟨[], by rw [hsc, List.append_nil]⟩, ?_, ?_, ?_⟩
  · rw [hsl]
    exact id
  · rw [hsl]
    exact fun _ h => h
  · intro p _
    rw [hsc, memB, memB, hmk]

theorem pres_pushError (env : Env) (ov : Option Frontmatter) (st : LoadState)
    (path : String) (e : SlideError) : Pres env ov st (pushError st path e) :=
  pres_sameCore env ov st _ rfl rfl (memoKeys_pushError st path e)

theorem count_append_singleton_ne (l : List String) (p q : String) (h : p ≠ q) :
    (l ++ [q]).count p = l.count p := by
  rw [List.count_append]
  have : [q].count p = 0 := by
    rw [List.count_cons]
    simp
    exact fun e : q = p => h e.symm
  omega

theorem count_append_singleton_self (l : List String) (p : String) :
    (l ++ [p]).count p = l.count p + 1 := by
  rw [List.count_append]
  have : [p].count p = 1 := by
    rw [List.count_cons]
    simp
  omega

/-- The call-log-and-memoize step of `loadMarkdown` on a memo miss whose
fetch succeeds. -/
theorem pres_fetchOk (env : Env) (ov : Option Frontmatter) (st : LoadState)
    (path : String) (md : SlidevMarkdown) (hl : lookupDoc st path = none) :
    Pres env ov st
      { st with
        markdownFiles := st.markdownFiles ++ [(path, md)],
        watchFiles := st.watchFiles ++ [path],
        sourceCalls := st.sourceCalls ++ [path] } := by
  refine ⟨⟨[path], rfl⟩, fun h => h, fun _ h => h, fun p _ => ?_⟩
  have hmem : path ∉ memoKeys st := (lookupDoc_none_iff st path).mp hl
  by_cases hp : p = path
  · subst hp
    have h0 : memB st p = 0 := by simp [memB, hmem]
    have h1 : memB { st with
        markdownFiles := st.markdownFiles ++ [(p, md)],
        watchFiles := st.watchFiles ++ [p],
        sourceCalls := st.sourceCalls ++ [p] } p = 1 := by
      simp [memB, memoKeys]
    rw [h0, h1]
    show (st.sourceCalls ++ [p]).count p + 0 ≤ st.sourceCalls.count p + 1
    rw [count_append_singleton_self]
  · have hc : (st.sourceCalls ++ [path]).count p = st.sourceCalls.count p := by
      exact count_append_singleton_ne _ _ _ hp
    have hm : memB { st with
        markdownFiles := st.markdownFiles ++ [(path, md)],
        watchFiles := st.watchFiles ++ [path],
        sourceCalls := st.sourceCalls ++ [path] } p = memB st p := by
      simp only [memB, memoKeys]
      have : p ∈ (st.markdownFiles ++ [(path, md)]).map (fun x => x.1) ↔
          p ∈ st.markdownFiles.map (fun x => x.1) := by
        simp [hp]
      by_cases hin : p ∈ st.markdownFiles.map (fun x => x.1)
      · rw [if_pos (this.mpr hin), if_pos hin]
      · rw [if_neg (fun hc2 => hin (this.mp hc2)), if_neg hin]
    show (st.sourceCalls ++ [path]).count p + memB st p ≤ st.sourceCalls.count p + _
    rw [hc, hm]

/-- The call-log step of `loadMarkdown` on a memo miss whose fetch then
fails: the call is made but nothing is memoized. -/
theorem pres_fetchFail (env : Env) (ov : Option Frontmatter) (st : LoadState)
    (path : String) (hfp : (fetchParse env path).isOk = false) :
    Pres env ov st { st with sourceCalls := st.sourceCalls ++ [path] } := by
  refine ⟨⟨[path], rfl⟩, fun h => h, fun _ h => h, fun p hp => ?_⟩
  by_cases hpp : p = path
  · subst hpp
    rw [hp] at hfp
    cases hfp
  · have hc : (st.sourceCalls ++ [path]).count p = st.sourceCalls.count p :=
      count_append_singleton_ne _ _ _ hpp
    show (st.sourceCalls ++ [path]).count p + memB st p ≤
      st.sourceCalls.count p + memB { st with sourceCalls := st.sourceCalls ++ [path] } p
    rw [hc]
    have : memB { st with sourceCalls := st.sourceCalls ++ [path] } p = memB st p := rfl
    rw [this]

/-- The terminal emission step of `loadSlide`. -/
theorem pres_emit (env : Env) (ov : Option Frontmatter) (st : LoadState)
    (x : SlideInfo) (hidx : x.index = st.slides.length)
    (hcl : ovClean ov → slideClean x) :
    Pres env ov st { st with slides := st.slides ++ [x] } := by
  refine ⟨⟨[], by simp⟩, ?_, ?_, fun p _ => le_rfl⟩
  · exact fun h => indexedOk_push st.slides x h hidx
  · exact fun ho h => slidesClean_push st.slides x h (hcl ho)

theorem boolFalse (x : Bool) (h : ¬ x = true) : x = false := by
  cases x with
  | false => rfl
  | true => exact absurd rfl h

theorem orFalse_left (a b : Bool) (h : (a || b) = false) : a = false := by
  cases a with
  | false => rfl
  | true => simp at h

theorem orFalse_right (a b : Bool) (h : (a || b) = false) : b = false := by
  cases b with
  | false => rfl
  | true => simp at h

theorem ovGetD_clean (ov : Option Frontmatter) (ho : ovClean ov) :
    fmGet (ov.getD []) "src" = none ∧
    fmTruthy (ov.getD []) "disabled" = false ∧
    fmTruthy (ov.getD []) "hide" = false := by
  cases ov with
  | none => exact ⟨rfl, rfl, rfl⟩
  | some fm => exact ho fm rfl

/-- The override built at an import site is clean whenever the incoming
override is: `src` is deleted, and `disabled`/`hide` stay non-truthy
because the importing slide passed the guard. -/
theorem ovClean_step (slide : SourceSlideInfo) (ov : Option Frontmatter)
    (hd : fmTruthy slide.frontmatter "disabled" = false)
    (hh : fmTruthy slide.frontmatter "hide" = false)
    (ho : ovClean ov) :
    ovClean (some (fmDelete (fmMerge slide.frontmatter (ov.getD [])) "src")) := by
  intro fm hfm
  injection hfm with hfm
  subst hfm
  obtain ⟨hos, hod, hoh⟩ := ovGetD_clean ov ho
  refine ⟨fmGet_fmDelete_self _ _, ?_, ?_⟩
  · rw [fmTruthy_congr _ (fmMerge slide.frontmatter (ov.getD [])) "disabled"
      (fmGet_fmDelete_ne _ "src" "disabled" (by decide))]
    exact fmTruthy_fmMerge_false _ _ _ hd hod
  · rw [fmTruthy_congr _ (fmMerge slide.frontmatter (ov.getD [])) "hide"
      (fmGet_fmDelete_ne _ "src" "hide" (by decide))]
    exact fmTruthy_fmMerge_false _ _ _ hh hoh

theorem presAll (env : Env) (fuel : Nat) :
    (∀ path range ov imp st,
      Pres env ov st (finalStateMd (loadMarkdown env fuel path range ov imp st))) ∧
    (∀ md mdPath idxs ov imp st,
      Pres env ov st (finalState (loadSlides env fuel md mdPath idxs ov imp st))) ∧
    (∀ mdPath slide ov ch st,
      Pres env ov st (finalState (loadSlide env fuel mdPath slide ov ch st))) := by
  induction fuel with
  | zero =>
    refine ⟨?_, ?_, ?_⟩ <;> intros <;>
      · simp only [loadMarkdown, loadSlides, loadSlide, finalState, finalStateMd]
        exact pres_refl _ _ _
  | succ f ih =>
    obtain ⟨ihM, ihS, ihD⟩ := ih
    refine ⟨?_, ?_, ?_⟩
    · -- loadMarkdown
      intro path range ov imp st
      simp only [loadMarkdown]
      cases hl : lookupDoc st path with
      | some md =>
        simp only [hl]
        cases hs : loadSlides env f md path (parseRangeString md.slides.length range) ov imp st with
        | error e =>
          simp only [hs, finalStateMd]
          have h1 := ihS md path (parseRangeString md.slides.length range) ov imp st
          rw [hs] at h1
          simpa [finalState] using h1
        | ok st2 =>
          simp only [hs, finalStateMd]
          have h1 := ihS md path (parseRangeString md.slides.length range) ov imp st
          rw [hs] at h1
          simpa [finalState] using h1
      | none =>
        simp only [hl]
        cases hf : fetchParse env path with
        | error msg =>
          simp only [hf, finalStateMd]
          exact pres_fetchFail env ov st path (by rw [hf]; rfl)
        | ok md =>
          simp only [hf]
          have hstep : Pres env ov st
              { markdownFiles := st.markdownFiles ++ [(path, md)],
                watchFiles := st.watchFiles ++ [path],
                slides := st.slides,
                sourceCalls := st.sourceCalls ++ [path],
                importsLog := st.importsLog } :=
            pres_fetchOk env ov st path md hl
          cases hs : loadSlides env f md path (parseRangeString md.slides.length range) ov imp
              { markdownFiles := st.markdownFiles ++ [(path, md)],
                watchFiles := st.watchFiles ++ [path],
                slides := st.slides,
                sourceCalls := st.sourceCalls ++ [path],
                importsLog := st.importsLog } with
          | error e =>
            simp only [hs, finalStateMd]
            have h1 := ihS md path (parseRangeString md.slides.length range) ov imp
              { markdownFiles := st.markdownFiles ++ [(path, md)],
                watchFiles := st.watchFiles ++ [path],
                slides := st.slides,
                sourceCalls := st.sourceCalls ++ [path],
                importsLog := st.importsLog }
            rw [hs] at h1
            exact pres_trans _ _ _ _ _ hstep (by simpa [finalState] using h1)
          | ok st2 =>
            simp only [hs, finalStateMd]
            have h1 := ihS md path (parseRangeString md.slides.length range) ov imp
              { markdownFiles := st.markdownFiles ++ [(path, md)],
                watchFiles := st.watchFiles ++ [path],
                slides := st.slides,
                sourceCalls := st.sourceCalls ++ [path],
                importsLog := st.importsLog }
            rw [hs] at h1
            exact pres_trans _ _ _ _ _ hstep (by simpa [finalState] using h1)
    · -- loadSlides
      intro md mdPath idxs ov imp st
      simp only [loadSlides]
      cases idxs with
      | nil =>
        simp only [finalState]
        exact pres_refl _ _ _
      | cons index rest =>
        cases hg : md.slides[index - 1]? with
        | none =>
          simp only [hg, finalState]
          exact pres_refl _ _ _
        | some subSlide =>
          simp only [hg]
          cases hd : loadSlide env f mdPath subSlide ov imp st with
          | error ep =>
            obtain ⟨ex, stE⟩ := ep
            cases ex with
            | thrown e =>
              simp only [hd]
              have h1 : Pres env ov st stE := by
                have h0 := ihD mdPath subSlide ov imp st
                rw [hd] at h0
                simpa [finalState] using h0
              have h2 := pres_pushError env ov stE mdPath
                { row := subSlide.start, message := "Error when loading slide: " ++ e }
              have h3 := ihS md mdPath rest ov imp (pushError stE mdPath
                { row := subSlide.start, message := "Error when loading slide: " ++ e })
              exact pres_trans _ _ _ _ _ (pres_trans _ _ _ _ _ h1 h2) h3
            | fuelOut =>
              simp only [hd, finalState]
              have h0 := ihD mdPath subSlide ov imp st
              rw [hd] at h0
              simpa [finalState] using h0
          | ok st1 =>
            simp only [hd]
            have h1 : Pres env ov st st1 := by
              have h0 := ihD mdPath subSlide ov imp st
              rw [hd] at h0
              simpa [finalState] using h0
            cases hi : imp.bind List.getLast? with
            | some di =>
              simp only [hi]
              have h2 : Pres env ov st1
                  { st1 with importsLog := st1.importsLog ++ [(di, subSlide)] } :=
                pres_sameCore env ov st1 _ rfl rfl rfl
              have h3 := ihS md mdPath rest ov imp
                { st1 with importsLog := st1.importsLog ++ [(di, subSlide)] }
              exact pres_trans _ _ _ _ _ (pres_trans _ _ _ _ _ h1 h2) h3
            | none =>
              simp only [hi]
              exact pres_trans _ _ _ _ _ h1 (ihS md mdPath rest ov imp st1)
    · -- loadSlide
      intro mdPath slide ov ch st
      simp only [loadSlide]
      by_cases hguard : (fmTruthy slide.frontmatter "disabled" || fmTruthy slide.frontmatter "hide") = true
      · rw [if_pos hguard]
        simp only [finalState]
        exact pres_refl _ _ _
      · rw [if_neg hguard]
        have hgf : (fmTruthy slide.frontmatter "disabled" || fmTruthy slide.frontmatter "hide") = false :=
          boolFalse _ hguard
        have hd : fmTruthy slide.frontmatter "disabled" = false := orFalse_left _ _ hgf
        have hh : fmTruthy slide.frontmatter "hide" = false := orFalse_right _ _ hgf
        by_cases hsrc : (fmTruthy slide.frontmatter "src") = true
        · rw [if_pos hsrc]
          cases hget : fmGet slide.frontmatter "src" with
          | none =>
            simp only [hget, finalState]
            exact pres_refl _ _ _
          | some v =>
            cases v with
            | str s =>
              simp only [hget]
              by_cases hm : (!isHttp (resolveSrcPath env.userRoot slide.filepath (srcParts s).1) &&
                  !(env.fsExists.contains (resolveSrcPath env.userRoot slide.filepath (srcParts s).1))) = true
              · rw [if_pos hm]
                simp only [finalState]
                exact pres_pushError _ _ _ _ _
              · rw [if_neg hm]
                cases ch with
                | some c =>
                  simp only []
                  cases hr : loadMarkdown env f (resolveSrcPath env.userRoot slide.filepath (srcParts s).1)
                      ((srcParts s).2)
                      (some (fmDelete (fmMerge slide.frontmatter (ov.getD [])) "src"))
                      (some (c ++ [slide])) st with
                  | error e =>
                    simp only [hr, finalState]
                    have h0 := ihM (resolveSrcPath env.userRoot slide.filepath (srcParts s).1)
                      ((srcParts s).2)
                      (some (fmDelete (fmMerge slide.frontmatter (ov.getD [])) "src"))
                      (some (c ++ [slide])) st
                    rw [hr] at h0
                    refine pres_movOv env ov _ st _ (fun ho => ovClean_step slide ov hd hh ho) ?_
                    simpa [finalStateMd] using h0
                  | ok pr =>
                    obtain ⟨md1, st1⟩ := pr
                    simp only [hr, finalState]
                    have h0 := ihM (resolveSrcPath env.userRoot slide.filepath (srcParts s).1)
                      ((srcParts s).2)
                      (some (fmDelete (fmMerge slide.frontmatter (ov.getD [])) "src"))
                      (some (c ++ [slide])) st
                    rw [hr] at h0
                    refine pres_movOv env ov _ st _ (fun ho => ovClean_step slide ov hd hh ho) ?_
                    simpa [finalStateMd] using h0
                | none =>
                  simp only []
                  cases hr : loadMarkdown env f (resolveSrcPath env.userRoot slide.filepath (srcParts s).1)
                      ((srcParts s).2)
                      (some (fmDelete (fmMerge slide.frontmatter (ov.getD [])) "src"))
                      (some [slide]) st with
                  | error e =>
                    simp only [hr, finalState]
                    have h0 := ihM (resolveSrcPath env.userRoot slide.filepath (srcParts s).1)
                      ((srcParts s).2)
                      (some (fmDelete (fmMerge slide.frontmatter (ov.getD [])) "src"))
                      (some [slide]) st
                    rw [hr] at h0
                    refine pres_movOv env ov _ st _ (fun ho => ovClean_step slide ov hd hh ho) ?_
                    simpa [finalStateMd] using h0
                  | ok pr =>
                    obtain ⟨md1, st1⟩ := pr
                    simp only [hr, finalState]
                    have h0 := ihM (resolveSrcPath env.userRoot slide.filepath (srcParts s).1)
                      ((srcParts s).2)
                      (some (fmDelete (fmMerge slide.frontmatter (ov.getD [])) "src"))
                      (some [slide]) st
                    rw [hr] at h0
                    refine pres_movOv env ov _ st _ (fun ho => ovClean_step slide ov hd hh ho) ?_
                    simpa [finalStateMd] using h0
            | bool b =>
              simp only [hget, finalState]
              exact pres_refl _ _ _
            | num n =>
              simp only [hget, finalState]
              exact pres_refl _ _ _
            | null =>
              simp only [hget, finalState]
              exact pres_refl _ _ _
        · rw [if_neg hsrc]
          simp only [finalState]
          refine pres_emit env ov st _ rfl ?_
          intro ho
          obtain ⟨hos, hod, hoh⟩ := ovGetD_clean ov ho
          have hsf : fmTruthy slide.frontmatter "src" = false := boolFalse _ hsrc
          exact ⟨fmTruthy_fmMerge_false _ _ _ hsf (fmTruthy_of_get_none _ _ hos),
            fmTruthy_fmMerge_false _ _ _ hd hod,
            fmTruthy_fmMerge_false _ _ _ hh hoh⟩

/-- Unfolding of a successful `load`: the up-front entry fetch succeeded,
and the result aggregate is read off the state in which the entry
`loadMarkdown` finished, starting from the state whose only source call
is the line-48 entry fetch. -/
theorem load_ok_inv (env : Env) (filepath : String) (fuel : Nat) (r : LoadedSlidevData)
    (h : load env filepath fuel = .ok r) :
    (fetchParse env filepath).isOk = true ∧
    ∃ entry st1,
      loadMarkdown env fuel (slash filepath) none none none
        { markdownFiles := [], watchFiles := [], slides := [],
          sourceCalls := [filepath], importsLog := [] } = .ok (entry, st1) ∧
      r.slides = st1.slides ∧
      r.sourceCalls = st1.sourceCalls ∧
      r.markdownFiles = st1.markdownFiles ∧
      r.entry = entry := by
  rw [load] at h
  cases hf : fetchParse env filepath with
  | error msg =>
    rw [hf] at h
    cases h
  | ok md0 =>
    rw [hf] at h
    refine ⟨rfl, ?_⟩
    cases hm : loadMarkdown env fuel (slash filepath) none none none
        { markdownFiles := [], watchFiles := [], slides := [],
          sourceCalls := [filepath], importsLog := [] } with
    | error e =>
      rw [hm] at h
      cases h
    | ok pr =>
      obtain ⟨entry, st1⟩ := pr
      rw [hm] at h
      refine ⟨entry, st1, rfl, ?_, ?_, ?_, ?_⟩ <;>
        · injection h with h
          rw [← h]

/-! Concrete scenarios used by the claim theorems. -/

/-- Extract a successful load result (used to name concrete results). -/
def okOr (r : LRes LoadedSlidevData) (d : LoadedSlidevData) : LoadedSlidevData :=
  match r with
  | .ok x => x
  | .error _ => d

def emptyLoaded : LoadedSlidevData :=
  { slides := [], entry := { filepath := "", slides := [], errors := [] },
    headmatter := [], features := "", markdownFiles := [], watchFiles := [],
    sourceCalls := [] }

def aA : SourceSlideInfo :=
  { filepath := "/p/A.md", content := "a", raw := "a", start := 1 }

def impAB : SourceSlideInfo :=
  { filepath := "/p/A.md", frontmatter := [("src", Val.str "B.md")], start := 3 }

def cA : SourceSlideInfo :=
  { filepath := "/p/A.md", content := "c", raw := "c", start := 5 }

def b1B : SourceSlideInfo :=
  { filepath := "/p/B.md", content := "b1", raw := "b1", start := 1 }

def b2B : SourceSlideInfo :=
  { filepath := "/p/B.md", content := "b2", raw := "b2", start := 2 }

/-- The end-to-end example of the spec: `A.md` = [a, {src: B.md}, c],
`B.md` = [b1, b2]. -/
def envAB : Env :=
  { userRoot := "/p",
    docs := [
      ("/p/A.md", { slides := [aA, impAB, cA] }),
      ("/p/B.md", { slides := [b1B, b2B] }) ],
    fsExists := ["/p/B.md"] }

def rAB : LoadedSlidevData := okOr (load envAB "/p/A.md" 20) emptyLoaded

/-- `A.md` importing `B.md` from two different slides. -/
def envTwice : Env :=
  { userRoot := "/p",
    docs := [
      ("/p/A.md", { slides := [
        { filepath := "/p/A.md", frontmatter := [("src", Val.str "B.md")], start := 1 },
        { filepath := "/p/A.md", frontmatter := [("src", Val.str "B.md")], start := 3 } ] }),
      ("/p/B.md", { slides := [
        { filepath := "/p/B.md", content := "b", raw := "b", start := 1 } ] }) ],
    fsExists := ["/p/B.md"] }

def rTwice : LoadedSlidevData := okOr (load envTwice "/p/A.md" 20) emptyLoaded

def a1A : SourceSlideInfo :=
  { filepath := "/p/A.md", content := "a1", raw := "a1", start := 1 }

def iB : SourceSlideInfo :=
  { filepath := "/p/A.md", frontmatter := [("src", Val.str "B.md")], start := 3 }

def iD : SourceSlideInfo :=
  { filepath := "/p/A.md", frontmatter := [("src", Val.str "D.md")], start := 5 }

def jC : SourceSlideInfo :=
  { filepath := "/p/B.md", frontmatter := [("src", Val.str "C.md")], start := 1 }

def c1C : SourceSlideInfo :=
  { filepath := "/p/C.md", content := "c1", raw := "c1", start := 1 }

def d1D : SourceSlideInfo :=
  { filepath := "/p/D.md", content := "d1", raw := "d1", start := 1 }

/-- Nested imports: `A.md` = [a1, {src: B.md}, {src: D.md}],
`B.md` = [{src: C.md}], `C.md` = [c1], `D.md` = [d1]. -/
def envDeep : Env :=
  { userRoot := "/p",
    docs := [
      ("/p/A.md", { slides := [a1A, iB, iD] }),
      ("/p/B.md", { slides := [jC] }),
      ("/p/C.md", { slides := [c1C] }),
      ("/p/D.md", { slides := [d1D] }) ],
    fsExists := ["/p/B.md", "/p/C.md", "/p/D.md"] }

/-- A document whose only slide has the falsy frontmatter `src: ""`. -/
def envSrcEmpty : Env :=
  { userRoot := "/p",
    docs := [
      ("/p/A.md", { slides := [
        { filepath := "/p/A.md", frontmatter := [("src", Val.str "")],
          content := "x", raw := "x", start := 1 } ] }) ],
    fsExists := [] }

def rSrcEmpty : LoadedSlidevData := okOr (load envSrcEmpty "/p/A.md" 10) emptyLoaded

/-- A document whose first slide has the truthy non-string `src: true`
(which makes `.split` throw) followed by a good slide. -/
def envBadSrc : Env :=
  { userRoot := "/p",
    docs := [
      ("/p/A.md", { slides := [
        { filepath := "/p/A.md", frontmatter := [("src", Val.bool true)], start := 2 },
        { filepath := "/p/A.md", content := "g", raw := "g", start := 4 } ] }) ],
    fsExists := [] }

/-- `A.md` = [{src: B.md}, c] where `B.md` exists on disk but its
fetch (file read) fails. -/
def envFetchFail : Env :=
  { userRoot := "/p",
    docs := [
      ("/p/A.md", { slides := [
        { filepath := "/p/A.md", frontmatter := [("src", Val.str "B.md")], start := 1 },
        { filepath := "/p/A.md", content := "c", raw := "c", start := 3 } ] }) ],
    fsExists := ["/p/B.md"] }

def rFetchFail : LoadedSlidevData := okOr (load envFetchFail "/p/A.md" 10) emptyLoaded

/-- `A.md` = [{src: http://x/B.md}] importing a remote document that is
not on the local disk at all. -/
def envRemote : Env :=
  { userRoot := "/p",
    docs := [
      ("/p/A.md", { slides := [
        { filepath := "/p/A.md", frontmatter := [("src", Val.str "http://x/B.md")], start := 1 } ] }),
      ("http://x/B.md", { slides := [
        { filepath := "http://x/B.md", content := "rb", raw := "rb", start := 1 } ] }) ],
    fsExists := [] }

theorem loadAB_eval : load envAB "/p/A.md" 20 = .ok rAB := by
  simp [load, loadMarkdown, loadSlides, loadSlide, fetchParse, lookupDoc, getMdD, pushError,
    parseRangeString, srcParts, resolveSrcPath, nodeResolve, nodeDirname, slash, isHttp,
    strStarts, strSplitCh, chSplit, chJoin, strDrop, fmMerge, fmGet, fmTruthy, fmDelete,
    fmNullish, Val.truthy, memoKeys, finalState, finalStateMd, okOr, emptyLoaded,
    List.find?, List.range', List.isPrefixOf, Except.map, envAB, aA, impAB, cA, b1B, b2B, rAB]


theorem loadTwice_eval : load envTwice "/p/A.md" 20 = .ok rTwice := by
  simp [load, loadMarkdown, loadSlides, loadSlide, fetchParse, lookupDoc, getMdD, pushError,
    parseRangeString, srcParts, resolveSrcPath, nodeResolve, nodeDirname, slash, isHttp,
    strStarts, strSplitCh, chSplit, chJoin, strDrop, fmMerge, fmGet, fmTruthy, fmDelete,
    fmNullish, Val.truthy, memoKeys, finalState, finalStateMd, okOr, emptyLoaded,
    List.find?, List.range', List.isPrefixOf, Except.map, envTwice, rTwice]


theorem loadSrcEmpty_eval : load envSrcEmpty "/p/A.md" 10 = .ok rSrcEmpty := by
  simp [load, loadMarkdown, loadSlides, loadSlide, fetchParse, lookupDoc, getMdD, pushError,
    parseRangeString, srcParts, resolveSrcPath, nodeResolve, nodeDirname, slash, isHttp,
    strStarts, strSplitCh, chSplit, chJoin, strDrop, fmMerge, fmGet, fmTruthy, fmDelete,
    fmNullish, Val.truthy, memoKeys, finalState, finalStateMd, okOr, emptyLoaded,
    List.find?, List.range', List.isPrefixOf, Except.map, envSrcEmpty, rSrcEmpty]


theorem loadFetchFail_eval : load envFetchFail "/p/A.md" 10 = .ok rFetchFail := by
  simp [load, loadMarkdown, loadSlides, loadSlide, fetchParse, lookupDoc, getMdD, pushError,
    parseRangeString, srcParts, resolveSrcPath, nodeResolve, nodeDirname, slash, isHttp,
    strStarts, strSplitCh, chSplit, chJoin, strDrop, fmMerge, fmGet, fmTruthy, fmDelete,
    fmNullish, Val.truthy, memoKeys, finalState, finalStateMd, okOr, emptyLoaded,
    List.find?, List.range', List.isPrefixOf, Except.map, envFetchFail, rFetchFail]

theorem ovClean_none : ovClean none :=
  fun _ h => nomatch h

/-- C1: for every entry document the output slide sequence is the
pre-order traversal of the import tree, with sibling slides and imports
emitted in parent order and each import expanded in place, and each
emitted slide's `index` equals its zero-based position in the output
sequence.  First conjunct: the A.md/B.md example yields [a, b1, b2, c]
with indices 0,1,2,3 (and the b-slides carry the importing slide);
second conjunct: in every successful `load`, `index` equals position
(strictly increasing and gap-free). -/
theorem C1_preorder_and_indices :
    ((load envAB "/p/A.md" 20).map (fun r =>
        (r.slides.map (fun s => s.content), r.slides.map (fun s => s.index),
         r.slides.map (fun s => s.importChain))) =
      .ok (["a", "b1", "b2", "c"], [0, 1, 2, 3],
        [none, some [impAB], some [impAB], none])) ∧
    (∀ env fp fuel r, load env fp fuel = .ok r → indexedOk r.slides) := by
  constructor
  · simp [load, loadMarkdown, loadSlides, loadSlide, fetchParse, lookupDoc, getMdD, pushError,
    parseRangeString, srcParts, resolveSrcPath, nodeResolve, nodeDirname, slash, isHttp,
    strStarts, strSplitCh, chSplit, chJoin, strDrop, fmMerge, fmGet, fmTruthy, fmDelete,
    fmNullish, Val.truthy, memoKeys, finalState, finalStateMd, okOr, emptyLoaded,
    List.find?, List.range', List.isPrefixOf, Except.map, List.count_cons, envAB, aA, impAB, cA, b1B, b2B]
  · intro env fp fuel r hld
    obtain ⟨-, entry, st1, hm, hslides, -, -, -⟩ := load_ok_inv env fp fuel r hld
    have hp := (presAll env fuel).1 (slash fp) none none none
      { markdownFiles := [], watchFiles := [], slides := [],
        sourceCalls := [fp], importsLog := [] }
    rw [hm] at hp
    simp only [finalStateMd] at hp
    rw [hslides]
    exact hp.2.1 indexedOk_nil

/-- C1 witness: the general part applied to the A.md/B.md example. -/
theorem C1_preorder_and_indices_witness : indexedOk rAB.slides :=
  C1_preorder_and_indices.2 envAB "/p/A.md" 20 rAB loadAB_eval

/-- C2: a slide whose own frontmatter has `disabled` or `hide` truthy
contributes nothing and is not recursed into (first conjunct: `loadSlide`
returns with the state untouched); consequently no slide whose effective
frontmatter has `disabled`/`hide` truthy ever appears in the output of a
`load` (second conjunct). -/
theorem C2_disabled_hide_skip :
    (∀ env f mdPath slide ov ch st,
      (fmTruthy slide.frontmatter "disabled" = true ∨
       fmTruthy slide.frontmatter "hide" = true) →
      loadSlide env (f + 1) mdPath slide ov ch st = .ok st) ∧
    (∀ env fp fuel r, load env fp fuel = .ok r →
      ∀ s ∈ r.slides,
        fmTruthy s.frontmatter "disabled" = false ∧
        fmTruthy s.frontmatter "hide" = false) := by
  constructor
  · intro env f mdPath slide ov ch st hdis
    have hcond : (fmTruthy slide.frontmatter "disabled" ||
        fmTruthy slide.frontmatter "hide") = true := by
      rcases hdis with h | h <;> simp [h]
    simp only [loadSlide]
    rw [if_pos hcond]
  · intro env fp fuel r hld s hs
    obtain ⟨-, entry, st1, hm, hslides, -, -, -⟩ := load_ok_inv env fp fuel r hld
    have hp := (presAll env fuel).1 (slash fp) none none none
      { markdownFiles := [], watchFiles := [], slides := [],
        sourceCalls := [fp], importsLog := [] }
    rw [hm] at hp
    simp only [finalStateMd] at hp
    have hcl : slidesClean st1.slides := hp.2.2.1 ovClean_none slidesClean_nil
    rw [hslides] at hs
    exact ⟨(hcl s hs).2.1, (hcl s hs).2.2⟩

/-- C2 witness: a disabled slide is skipped with the state unchanged,
and the A.md/B.md output contains no disabled/hidden slide. -/
theorem C2_disabled_hide_skip_witness :
    loadSlide envAB 1 "/p/A.md"
      { filepath := "/p/A.md", frontmatter := [("disabled", Val.bool true)] }
      none none {} = .ok {} ∧
    (∀ s ∈ rAB.slides,
      fmTruthy s.frontmatter "disabled" = false ∧
      fmTruthy s.frontmatter "hide" = false) :=
  ⟨C2_disabled_hide_skip.1 envAB 0 "/p/A.md" _ none none {}
      (Or.inl (by decide)),
    C2_disabled_hide_skip.2 envAB "/p/A.md" 20 rAB loadAB_eval⟩

/-- C3 counterexample: the claim says the `src` key never survives into
a resolved slide's merged frontmatter, but a slide whose own frontmatter
has the falsy `src: ""` is emitted terminally with the `src` key
intact. -/
theorem C3_counterexample_falsy_src_survives :
    load envSrcEmpty "/p/A.md" 10 = .ok rSrcEmpty ∧
    rSrcEmpty.slides.map (fun s => fmGet s.frontmatter "src") =
      [some (Val.str "")] ∧
    ¬ (∀ s ∈ rSrcEmpty.slides, fmGet s.frontmatter "src" = none) := by
  refine ⟨loadSrcEmpty_eval, ?_, ?_⟩
  · simp [load, loadMarkdown, loadSlides, loadSlide, fetchParse, lookupDoc, getMdD, pushError,
    parseRangeString, srcParts, resolveSrcPath, nodeResolve, nodeDirname, slash, isHttp,
    strStarts, strSplitCh, chSplit, chJoin, strDrop, fmMerge, fmGet, fmTruthy, fmDelete,
    fmNullish, Val.truthy, memoKeys, finalState, finalStateMd, okOr, emptyLoaded,
    List.find?, List.range', List.isPrefixOf, Except.map, List.count_cons, envSrcEmpty, rSrcEmpty]
  · intro hall
    have h1 : rSrcEmpty.slides.map (fun s => fmGet s.frontmatter "src") =
        [some (Val.str "")] := by
      simp [load, loadMarkdown, loadSlides, loadSlide, fetchParse, lookupDoc, getMdD, pushError,
    parseRangeString, srcParts, resolveSrcPath, nodeResolve, nodeDirname, slash, isHttp,
    strStarts, strSplitCh, chSplit, chJoin, strDrop, fmMerge, fmGet, fmTruthy, fmDelete,
    fmNullish, Val.truthy, memoKeys, finalState, finalStateMd, okOr, emptyLoaded,
    List.find?, List.range', List.isPrefixOf, Except.map, List.count_cons, envSrcEmpty, rSrcEmpty]
    cases hsl : rSrcEmpty.slides with
    | nil => rw [hsl] at h1; cases h1
    | cons x xs =>
      have hx := hall x (by rw [hsl]; exact List.mem_cons_self x xs)
      rw [hsl] at h1
      simp only [List.map_cons] at h1
      rw [hx] at h1
      cases h1

/-- C3 amended: a truthy `src` never survives into an emitted slide's
merged frontmatter (import-site overrides always have `src` deleted),
and override precedence is key-by-key: the merged value is the
override's when it defines the key, otherwise the slide's own; a falsy
`src` in the slide's own frontmatter does, however, survive verbatim. -/
theorem C3_amended_src_and_precedence :
    (∀ env fp fuel r, load env fp fuel = .ok r →
      ∀ s ∈ r.slides, fmTruthy s.frontmatter "src" = false) ∧
    (∀ a b : Frontmatter, ∀ k,
      fmGet (fmMerge a b) k = match fmGet b k with
        | some v => some v
        | none => fmGet a k) := by
  constructor
  · intro env fp fuel r hld s hs
    obtain ⟨-, entry, st1, hm, hslides, -, -, -⟩ := load_ok_inv env fp fuel r hld
    have hp := (presAll env fuel).1 (slash fp) none none none
      { markdownFiles := [], watchFiles := [], slides := [],
        sourceCalls := [fp], importsLog := [] }
    rw [hm] at hp
    simp only [finalStateMd] at hp
    have hcl : slidesClean st1.slides := hp.2.2.1 ovClean_none slidesClean_nil
    rw [hslides] at hs
    exact (hcl s hs).1
  · intro a b k
    rw [fmGet_fmMerge]
    cases fmGet b k <;> rfl

/-- C3 witness: the A.md/B.md output has no truthy `src`, and the merge
precedence at a concrete key. -/
theorem C3_amended_witness :
    (∀ s ∈ rAB.slides, fmTruthy s.frontmatter "src" = false) ∧
    fmGet (fmMerge [("x", Val.num 1)] [("x", Val.num 2)]) "x" = some (Val.num 2) :=
  ⟨C3_amended_src_and_precedence.1 envAB "/p/A.md" 20 rAB loadAB_eval,
    by
      rw [C3_amended_src_and_precedence.2 [("x", Val.num 1)] [("x", Val.num 2)] "x"]
      decide⟩

/-- C4: within one `load`, a path whose fetch+parse succeeds is fetched
at most once (apart from the entry path, see C10); in the concrete
double-import example the injected source function is called exactly
once for B.md while B's slide is emitted twice. -/
theorem C4_memoized_single_fetch :
    ((load envTwice "/p/A.md" 20).map (fun r =>
        (r.sourceCalls.count "/p/B.md", r.slides.map (fun s => s.content))) =
      .ok (1, ["b", "b"])) ∧
    (∀ env fp fuel r, load env fp fuel = .ok r →
      ∀ p, p ≠ fp → (fetchParse env p).isOk = true →
        r.sourceCalls.count p ≤ 1) := by
  constructor
  · simp [load, loadMarkdown, loadSlides, loadSlide, fetchParse, lookupDoc, getMdD, pushError,
    parseRangeString, srcParts, resolveSrcPath, nodeResolve, nodeDirname, slash, isHttp,
    strStarts, strSplitCh, chSplit, chJoin, strDrop, fmMerge, fmGet, fmTruthy, fmDelete,
    fmNullish, Val.truthy, memoKeys, finalState, finalStateMd, okOr, emptyLoaded,
    List.find?, List.range', List.isPrefixOf, Except.map, List.count_cons, envTwice]
  · intro env fp fuel r hld p hne hfok
    obtain ⟨-, entry, st1, hm, -, hcalls, -, -⟩ := load_ok_inv env fp fuel r hld
    have hp := (presAll env fuel).1 (slash fp) none none none
      { markdownFiles := [], watchFiles := [], slides := [],
        sourceCalls := [fp], importsLog := [] }
    rw [hm] at hp
    simp only [finalStateMd] at hp
    have hcount := hp.2.2.2 p hfok
    have h0 : memB ({ markdownFiles := [], watchFiles := [], slides := [],
                      sourceCalls := [fp], importsLog := [] } : LoadState) p = 0 := by
      simp [memB, memoKeys]
    have h1 : ([fp] : List String).count p = 0 := by
      rw [List.count_cons]
      simp
      exact fun e => hne e.symm
    have h2 : memB st1 p ≤ 1 := by
      unfold memB
      split <;> omega
    have ha : ({ markdownFiles := [], watchFiles := [], slides := [],
                 sourceCalls := [fp], importsLog := [] } : LoadState).sourceCalls = [fp] := rfl
    rw [ha, h1] at hcount
    rw [hcalls]
    omega

/-- C4 witness: the general bound applied to the double-import example. -/
theorem C4_memoized_single_fetch_witness :
    rTwice.sourceCalls.count "/p/B.md" ≤ 1 :=
  C4_memoized_single_fetch.2 envTwice "/p/A.md" 20 rTwice loadTwice_eval
    "/p/B.md" (by decide) (by decide)

/-- The split the claim describes, following the spec's words
(refinement comparison definition): cut at the FIRST `#` only, the path
part before it and the whole remainder after it as the range part. -/
def specSplitFirstHash (s : String) : String × Option String :=
  let pre := s.data.takeWhile (fun c => c ≠ '#')
  let post := s.data.dropWhile (fun c => c ≠ '#')
  (String.mk pre,
    match post with
    | [] => none
    | _ :: rest => some (String.mk rest))

/-- C5 counterexample: for `src: "B.md#2#9"` the code keeps only the
component between the first and second `#` as the range (`"2"`), while
the claim's split-on-the-first-`#` would keep the whole remainder
(`"2#9"`). -/
theorem C5_counterexample_second_hash_dropped :
    srcParts "B.md#2#9" = ("B.md", some "2") ∧
    specSplitFirstHash "B.md#2#9" = ("B.md", some "2#9") ∧
    srcParts "B.md#2#9" ≠ specSplitFirstHash "B.md#2#9" := by
  refine ⟨by decide, by decide, by decide⟩

/-- A `loadMarkdown` call on an unmemoized path always begins by calling
the injected source function on exactly that path. -/
theorem loadMarkdown_fetches_path (env : Env) (f : Nat) (path : String)
    (range : Option String) (ov : Option Frontmatter)
    (imp : Option (List SourceSlideInfo)) (st : LoadState)
    (hl : lookupDoc st path = none) :
    ∃ t, (finalStateMd (loadMarkdown env (f + 1) path range ov imp st)).sourceCalls =
      st.sourceCalls ++ path :: t := by
  simp only [loadMarkdown, hl]
  cases hf : fetchParse env path with
  | error msg => exact ⟨[], rfl⟩
  | ok md =>
    cases hs : loadSlides env f md path (parseRangeString md.slides.length range) ov imp
        { st with
          markdownFiles := st.markdownFiles ++ [(path, md)],
          watchFiles := st.watchFiles ++ [path],
          sourceCalls := st.sourceCalls ++ [path] } with
    | error e =>
      simp only [hs, finalStateMd]
      have hp := (presAll env f).2.1 md path (parseRangeString md.slides.length range) ov imp
        { st with
          markdownFiles := st.markdownFiles ++ [(path, md)],
          watchFiles := st.watchFiles ++ [path],
          sourceCalls := st.sourceCalls ++ [path] }
      rw [hs] at hp
      obtain ⟨⟨t, ht⟩, -, -, -⟩ := hp
      simp only [finalState] at ht
      exact ⟨t, by rw [ht, List.append_assoc]; rfl⟩
    | ok st3 =>
      simp only [hs, finalStateMd]
      have hp := (presAll env f).2.1 md path (parseRangeString md.slides.length range) ov imp
        { st with
          markdownFiles := st.markdownFiles ++ [(path, md)],
          watchFiles := st.watchFiles ++ [path],
          sourceCalls := st.sourceCalls ++ [path] }
      rw [hs] at hp
      obtain ⟨⟨t, ht⟩, -, -, -⟩ := hp
      simp only [finalState] at ht
      exact ⟨t, by rw [ht, List.append_assoc]; rfl⟩

/-- C5 amended: a slide's truthy string `src` is split on `#` with the
path part before the first `#` and the range part between the first and
second `#`; `loadSlide` then recurses into `loadMarkdown` at exactly the
resolved path — an http(s) path verbatim, a `/`-leading path under the
project root, anything else under the directory of the slide's owning
file, slash-normalized — with the merged override (`src` deleted) and
the chain extended by the slide (first conjunct); and on an unmemoized
path, that resolved path is exactly what the injected source function is
called on next (second conjunct). -/
theorem C5_amended_path_resolution :
    (∀ env f mdPath slide ov ch st s,
      fmGet slide.frontmatter "src" = some (Val.str s) →
      s ≠ "" →
      fmTruthy slide.frontmatter "disabled" = false →
      fmTruthy slide.frontmatter "hide" = false →
      ∀ p, p = (if isHttp ((strSplitCh s '#').headD "") then (strSplitCh s '#').headD ""
            else slash (if strStarts ((strSplitCh s '#').headD "") "/"
              then nodeResolve env.userRoot (strDrop ((strSplitCh s '#').headD "") 1)
              else nodeResolve (nodeDirname slide.filepath) ((strSplitCh s '#').headD ""))) →
      (!isHttp p && !(env.fsExists.contains p)) = false →
      loadSlide env (f + 1) mdPath slide ov ch st =
        (loadMarkdown env f p ((strSplitCh s '#')[1]?)
          (some (fmDelete (fmMerge slide.frontmatter (ov.getD [])) "src"))
          (some (match ch with
                 | some c => c ++ [slide]
                 | none => [slide])) st).map (fun pr => pr.2)) ∧
    (∀ env f path range ov imp st, lookupDoc st path = none →
      ∃ t, (finalStateMd (loadMarkdown env (f + 1) path range ov imp st)).sourceCalls =
        st.sourceCalls ++ path :: t) := by
  constructor
  · intro env f mdPath slide ov ch st s hget hs hd hh p hp hm
    have hcond : (fmTruthy slide.frontmatter "disabled" ||
        fmTruthy slide.frontmatter "hide") = false := by
      rw [hd, hh]
      rfl
    have hsrc : fmTruthy slide.frontmatter "src" = true := by
      rw [fmTruthy_of_get, hget]
      simpa [Val.truthy] using hs
    have hp' : p = resolveSrcPath env.userRoot slide.filepath (srcParts s).1 := by
      rw [hp, resolveSrcPath, srcParts]
    simp only [loadSlide]
    rw [if_neg (by rw [hcond]; exact Bool.false_ne_true)]
    rw [if_pos hsrc]
    simp only [hget]
    rw [← hp', if_neg (by rw [hm]; exact Bool.false_ne_true)]
    have hrange : (srcParts s).2 = (strSplitCh s '#')[1]? := rfl
    rw [hrange]
    cases hlm : loadMarkdown env f p ((strSplitCh s '#')[1]?)
        (some (fmDelete (fmMerge slide.frontmatter (ov.getD [])) "src"))
        (some (match ch with
               | some c => c ++ [slide]
               | none => [slide])) st with
    | error e => simp only [hlm, Except.map]
    | ok pr => simp only [hlm, Except.map]
  · intro env f path range ov imp st hl
    exact loadMarkdown_fetches_path env f path range ov imp st hl

/-- C5 witness: a relative import `B.md#2` from `/p/A.md` recurses at
`/p/B.md` with range `"2"`, and an unmemoized path is fetched. -/
theorem C5_amended_path_resolution_witness :
    loadSlide envAB 1 "/p/A.md" impAB none none {} =
      (loadMarkdown envAB 0 "/p/B.md" none
        (some [])
        (some [impAB]) {}).map (fun pr => pr.2) ∧
    ∃ t, (finalStateMd (loadMarkdown envAB 1 "/p/B.md" none none none {})).sourceCalls =
      [] ++ "/p/B.md" :: t := by
  constructor
  · have h := C5_amended_path_resolution.1 envAB 0 "/p/A.md" impAB none none {} "B.md"
      (by decide) (by decide) (by decide) (by decide) "/p/B.md" (by decide) (by decide)
    simpa [impAB, fmMerge, fmDelete, fmGet, List.find?] using h
  · exact C5_amended_path_resolution.2 envAB 0 "/p/B.md" none none none {} rfl

/-- Pushing an error onto the document at `path` appends exactly that
record to the memoized document's error list. -/
theorem lookupDoc_pushError (st : LoadState) (path : String) (e : SlideError) :
    lookupDoc (pushError st path e) path =
      (lookupDoc st path).map (fun md => { md with errors := md.errors ++ [e] }) := by
  rw [lookupDoc, lookupDoc, pushError]
  induction st.markdownFiles with
  | nil => rfl
  | cons kv l ih =>
    rw [List.map_cons, List.find?]
    by_cases h : (kv.1 == path) = true
    · rw [if_pos h]
      simp only [List.find?, h]
      rfl
    · rw [if_neg h]
      simp only [List.find?]
      rw [Bool.not_eq_true] at h
      simp only [h]
      exact ih

/-- C6: an import whose resolved path is local and does not exist on
disk records exactly one error on the importing document (row = the
start row of the importing slide, message naming the path), does not
recurse, and
contributes no slides (first conjunct, with all observables); remote
paths are never existence-checked: importing `http://x/B.md`, absent
from the local disk, loads its slides without any error (second
conjunct). -/
theorem C6_missing_local_import :
    (∀ env f mdPath slide ov ch st s md,
      fmGet slide.frontmatter "src" = some (Val.str s) →
      s ≠ "" →
      fmTruthy slide.frontmatter "disabled" = false →
      fmTruthy slide.frontmatter "hide" = false →
      ∀ p, p = resolveSrcPath env.userRoot slide.filepath (srcParts s).1 →
      isHttp p = false →
      env.fsExists.contains p = false →
      lookupDoc st mdPath = some md →
      loadSlide env (f + 1) mdPath slide ov ch st =
        .ok (pushError st mdPath
          { row := slide.start,
            message := "Imported markdown file not found: " ++ p }) ∧
      (pushError st mdPath
        { row := slide.start,
          message := "Imported markdown file not found: " ++ p }).slides = st.slides ∧
      (pushError st mdPath
        { row := slide.start,
          message := "Imported markdown file not found: " ++ p }).sourceCalls =
        st.sourceCalls ∧
      lookupDoc (pushError st mdPath
        { row := slide.start,
          message := "Imported markdown file not found: " ++ p }) mdPath =
        some { md with errors := md.errors ++
          [{ row := slide.start,
             message := "Imported markdown file not found: " ++ p }] }) ∧
    ((load envRemote "/p/A.md" 10).map (fun r =>
        (r.slides.map (fun sl => sl.content), r.entry.errors)) =
      .ok (["rb"], [])) := by
  constructor
  · intro env f mdPath slide ov ch st s md hget hs hd hh p hp hhttp hexists hmd
    have hcond : (fmTruthy slide.frontmatter "disabled" ||
        fmTruthy slide.frontmatter "hide") = false := by
      rw [hd, hh]
      rfl
    have hsrc : fmTruthy slide.frontmatter "src" = true := by
      rw [fmTruthy_of_get, hget]
      simpa [Val.truthy] using hs
    refine ⟨?_, rfl, rfl, ?_⟩
    · simp only [loadSlide]
      rw [if_neg (by rw [hcond]; exact Bool.false_ne_true)]
      rw [if_pos hsrc]
      simp only [hget]
      rw [← hp, if_pos (by rw [hhttp, hexists]; rfl)]
    · rw [lookupDoc_pushError, hmd]
      rfl
  · simp [load, loadMarkdown, loadSlides, loadSlide, fetchParse, lookupDoc, getMdD, pushError,
    parseRangeString, srcParts, resolveSrcPath, nodeResolve, nodeDirname, slash, isHttp,
    strStarts, strSplitCh, chSplit, chJoin, strDrop, fmMerge, fmGet, fmTruthy, fmDelete,
    fmNullish, Val.truthy, memoKeys, finalState, finalStateMd, okOr, emptyLoaded,
    List.find?, List.range', List.isPrefixOf, Except.map, List.count_cons, envRemote]

/-- C7: a slide whose resolution throws is caught at the per-slide loop
boundary: the error is recorded on the document at the slide's start row
with the thrown value in the message, and the loop continues with the
remaining slides (first conjunct: the loop equation); end-to-end, a
throwing slide (`src: true`) yields one recorded error and does not
prevent the following sibling slide from being emitted (second
conjunct). -/
theorem C7_per_slide_catch :
    (∀ env f md mdPath i rest ov imp st subSlide e stE,
      md.slides[i - 1]? = some subSlide →
      loadSlide env f mdPath subSlide ov imp st = .error (.thrown e, stE) →
      loadSlides env (f + 1) md mdPath (i :: rest) ov imp st =
        loadSlides env f md mdPath rest ov imp
          (pushError stE mdPath
            { row := subSlide.start,
              message := "Error when loading slide: " ++ e })) ∧
    ((load envBadSrc "/p/A.md" 10).map (fun r =>
        (r.slides.map (fun sl => sl.content), r.entry.errors)) =
      .ok (["g"],
        [{ row := 2,
            message := "Error when loading slide: TypeError: slide.frontmatter.src.split is not a function" }])) := by
  constructor
  · intro env f md mdPath i rest ov imp st subSlide e stE hg hd
    simp only [loadSlides, hg, hd]
  · simp [load, loadMarkdown, loadSlides, loadSlide, fetchParse, lookupDoc, getMdD, pushError,
    parseRangeString, srcParts, resolveSrcPath, nodeResolve, nodeDirname, slash, isHttp,
    strStarts, strSplitCh, chSplit, chJoin, strDrop, fmMerge, fmGet, fmTruthy, fmDelete,
    fmNullish, Val.truthy, memoKeys, finalState, finalStateMd, okOr, emptyLoaded,
    List.find?, List.range', List.isPrefixOf, Except.map, List.count_cons, envBadSrc]

/-- C7 witness: the catch equation applied to the concrete document with
the throwing `src: true` slide. -/
theorem C7_per_slide_catch_witness :
    loadSlides envBadSrc 2
      { filepath := "/p/A.md",
        slides := [
          { filepath := "/p/A.md", frontmatter := [("src", Val.bool true)], start := 2 },
          { filepath := "/p/A.md", content := "g", raw := "g", start := 4 } ],
        errors := [] }
      "/p/A.md" [1, 2] none none {} =
    loadSlides envBadSrc 1
      { filepath := "/p/A.md",
        slides := [
          { filepath := "/p/A.md", frontmatter := [("src", Val.bool true)], start := 2 },
          { filepath := "/p/A.md", content := "g", raw := "g", start := 4 } ],
        errors := [] }
      "/p/A.md" [2] none none
      (pushError {} "/p/A.md"
        { row := 2,
          message := "Error when loading slide: TypeError: slide.frontmatter.src.split is not a function" }) := by
  exact C7_per_slide_catch.1 envBadSrc 1
    { filepath := "/p/A.md",
      slides := [
        { filepath := "/p/A.md", frontmatter := [("src", Val.bool true)], start := 2 },
        { filepath := "/p/A.md", content := "g", raw := "g", start := 4 } ],
      errors := [] }
    "/p/A.md" 1 [2] none none {}
    { filepath := "/p/A.md", frontmatter := [("src", Val.bool true)], start := 2 }
    "TypeError: slide.frontmatter.src.split is not a function" {}
    (by decide)
    (by simp [loadSlide, fmTruthy, fmGet, Val.truthy, List.find?])

def missSlide : SourceSlideInfo :=
  { filepath := "/p/A.md", frontmatter := [("src", Val.str "missing.md")], start := 7 }

def mdW : SlidevMarkdown :=
  { filepath := "/p/A.md", slides := [missSlide], errors := [] }

def stW : LoadState :=
  { markdownFiles := [("/p/A.md", mdW)], watchFiles := ["/p/A.md"], slides := [],
    sourceCalls := ["/p/A.md"], importsLog := [] }

def missErr : SlideError :=
  { row := 7, message := "Imported markdown file not found: /p/missing.md" }

/-- C6 witness: the missing-local-import behavior at a concrete slide
with `src: missing.md`. -/
theorem C6_missing_local_import_witness :
    loadSlide envAB 1 "/p/A.md" missSlide none none stW =
      .ok (pushError stW "/p/A.md" missErr) ∧
    (pushError stW "/p/A.md" missErr).slides = stW.slides ∧
    (pushError stW "/p/A.md" missErr).sourceCalls = stW.sourceCalls ∧
    lookupDoc (pushError stW "/p/A.md" missErr) "/p/A.md" =
      some { mdW with errors := mdW.errors ++ [missErr] } :=
  C6_missing_local_import.1 envAB 0 "/p/A.md" missSlide none none stW "missing.md" mdW
    (by decide) (by decide) (by decide) (by decide)
    "/p/missing.md" (by decide) (by decide) (by decide) (by decide)

/-- C8 counterexample: the claim says every document fetch/parse failure
aborts the whole `load`; but when `B.md` (present on disk, so the
existence check passes) fails to fetch, the failure is caught at the
importing document's per-slide boundary and `load` still succeeds with
the sibling slide emitted. -/
theorem C8_counterexample_import_fetch_failure_not_fatal :
    load envFetchFail "/p/A.md" 10 = .ok rFetchFail ∧
    (fetchParse envFetchFail "/p/B.md").isOk = false ∧
    "/p/B.md" ∈ rFetchFail.sourceCalls ∧
    rFetchFail.slides.map (fun s => s.content) = ["c"] := by
  refine ⟨loadFetchFail_eval, by decide, ?_, ?_⟩ <;>
    simp [load, loadMarkdown, loadSlides, loadSlide, fetchParse, lookupDoc, getMdD, pushError,
    parseRangeString, srcParts, resolveSrcPath, nodeResolve, nodeDirname, slash, isHttp,
    strStarts, strSplitCh, chSplit, chJoin, strDrop, fmMerge, fmGet, fmTruthy, fmDelete,
    fmNullish, Val.truthy, memoKeys, finalState, finalStateMd, okOr, emptyLoaded,
    List.find?, List.range', List.isPrefixOf, Except.map, List.count_cons, envFetchFail, rFetchFail]

/-- C8 amended: only the entry document's fetch/parse failure aborts the
whole `load` with no partial result (first conjunct: an unfetchable
entry makes `load` reject); an imported document's fetch failure instead
propagates to the importing document's per-slide boundary, where it is
recorded as one error on the importing document while the siblings are
still processed (second conjunct). -/
theorem C8_amended_only_entry_fetch_fatal :
    (∀ env fp fuel, (env.docs.find? (fun kv => kv.1 == fp)) = none →
      load env fp fuel = .error
        (.thrown ("ENOENT: no such file or unreachable url: " ++ fp),
          { markdownFiles := [], watchFiles := [], slides := [],
            sourceCalls := [fp], importsLog := [] })) ∧
    ((load envFetchFail "/p/A.md" 10).map (fun r =>
        (r.slides.map (fun s => s.content), r.entry.errors)) =
      .ok (["c"],
        [{ row := 1,
            message := "Error when loading slide: ENOENT: no such file or unreachable url: /p/B.md" }])) := by
  constructor
  · intro env fp fuel hfind
    have hf : fetchParse env fp =
        .error ("ENOENT: no such file or unreachable url: " ++ fp) := by
      rw [fetchParse, hfind]
      rfl
    rw [load, hf]
  · simp [load, loadMarkdown, loadSlides, loadSlide, fetchParse, lookupDoc, getMdD, pushError,
    parseRangeString, srcParts, resolveSrcPath, nodeResolve, nodeDirname, slash, isHttp,
    strStarts, strSplitCh, chSplit, chJoin, strDrop, fmMerge, fmGet, fmTruthy, fmDelete,
    fmNullish, Val.truthy, memoKeys, finalState, finalStateMd, okOr, emptyLoaded,
    List.find?, List.range', List.isPrefixOf, Except.map, List.count_cons, envFetchFail]

/-- C8 amended witness: an entry path absent from the environment makes
the whole `load` fail. -/
theorem C8_amended_only_entry_fetch_fatal_witness :
    load envRemote "/nope.md" 5 = .error
      (.thrown "ENOENT: no such file or unreachable url: /nope.md",
        { markdownFiles := [], watchFiles := [], slides := [],
          sourceCalls := ["/nope.md"], importsLog := [] }) :=
  C8_amended_only_entry_fetch_fatal.1 envRemote "/nope.md" 5 (by decide)

/-- C9: `importChain` is the ordered ancestor list of import-directive
slides, root-first, absent for slides reached directly from the entry:
in A → B → C the slide of C carries [A's import slide, B's import
slide] (length 2 = depth), the sibling import A → D carries only [the
slide of A importing D] (sibling branches do not observe each other's
extensions), and the entry's own slide carries none. -/
theorem C9_import_chains :
    (load envDeep "/p/A.md" 30).map (fun r =>
      (r.slides.map (fun s => s.content), r.slides.map (fun s => s.importChain))) =
    .ok (["a1", "c1", "d1"], [none, some [iB, jC], some [iD]]) := by
  simp [load, loadMarkdown, loadSlides, loadSlide, fetchParse, lookupDoc, getMdD, pushError,
    parseRangeString, srcParts, resolveSrcPath, nodeResolve, nodeDirname, slash, isHttp,
    strStarts, strSplitCh, chSplit, chJoin, strDrop, fmMerge, fmGet, fmTruthy, fmDelete,
    fmNullish, Val.truthy, memoKeys, finalState, finalStateMd, okOr, emptyLoaded,
    List.find?, List.range', List.isPrefixOf, Except.map, List.count_cons, envDeep, a1A, iB, iD, jC, c1C, d1D]

/-- C10: in every successful `load` of an already-slash-normalized entry
path, the injected source function is called exactly twice for the entry
path: once up front (line 48) and once inside the Document Loader before
the entry document is memoized, since the first fetch does not populate
the memo (first conjunct); the A.md/B.md example's full call log
(second conjunct). -/
theorem C10_entry_fetched_twice :
    (∀ env fp fuel r, slash fp = fp → load env fp fuel = .ok r →
      r.sourceCalls.count fp = 2) ∧
    ((load envAB "/p/A.md" 20).map (fun r => r.sourceCalls) =
      .ok ["/p/A.md", "/p/A.md", "/p/B.md"]) := by
  constructor
  · intro env fp fuel r hsl hld
    obtain ⟨-, entry, st1, hm, -, hcalls, -, -⟩ := load_ok_inv env fp fuel r hld
    rw [hsl] at hm
    cases fuel with
    | zero =>
      simp only [loadMarkdown] at hm
      exact Except.noConfusion hm
    | succ f =>
      simp only [loadMarkdown, lookupDoc, List.find?, Option.map,
        List.nil_append, List.singleton_append] at hm
      cases hf : fetchParse env fp with
      | error msg =>
        rw [hf] at hm
        exact Except.noConfusion hm
      | ok md =>
        simp only [hf] at hm
        cases hs : loadSlides env f md fp (parseRangeString md.slides.length none) none none
            ({ markdownFiles := [(fp, md)], watchFiles := [fp], slides := [],
                sourceCalls := [fp, fp], importsLog := [] } : LoadState) with
        | error e =>
          rw [hs] at hm
          exact Except.noConfusion hm
        | ok st3 =>
          rw [hs] at hm
          injection hm with hpair
          have hst : st3 = st1 := congrArg Prod.snd hpair
          have hp := (presAll env f).2.1 md fp (parseRangeString md.slides.length none)
            none none
            ({ markdownFiles := [(fp, md)], watchFiles := [fp], slides := [],
                sourceCalls := [fp, fp], importsLog := [] } : LoadState)
          rw [hs] at hp
          simp only [finalState] at hp
          obtain ⟨⟨t, ht⟩, -, -, hcnt⟩ := hp
          have hfok : (fetchParse env fp).isOk = true := by
            rw [hf]
            rfl
          have hcnt2 := hcnt fp hfok
          have hm1 : memB ({ markdownFiles := [(fp, md)], watchFiles := [fp],
                             slides := [], sourceCalls := [fp, fp],
                             importsLog := [] } : LoadState) fp = 1 := by
            simp [memB, memoKeys]
          have hm3 : memB st3 fp ≤ 1 := by
            unfold memB
            split <;> omega
          have hproj : ({ markdownFiles := [(fp, md)], watchFiles := [fp],
                          slides := [], sourceCalls := [fp, fp],
                          importsLog := [] } : LoadState).sourceCalls = [fp, fp] := rfl
          rw [hproj] at ht
          have hc2 : ([fp, fp] : List String).count fp = 2 := by
            simp [List.count_cons]
          rw [hproj, hc2, hm1] at hcnt2
          have hge : 2 ≤ st3.sourceCalls.count fp := by
            rw [ht, List.count_append, hc2]
            omega
          rw [hcalls, ← hst]
          omega
  · simp [load, loadMarkdown, loadSlides, loadSlide, fetchParse, lookupDoc, getMdD, pushError,
    parseRangeString, srcParts, resolveSrcPath, nodeResolve, nodeDirname, slash, isHttp,
    strStarts, strSplitCh, chSplit, chJoin, strDrop, fmMerge, fmGet, fmTruthy, fmDelete,
    fmNullish, Val.truthy, memoKeys, finalState, finalStateMd, okOr, emptyLoaded,
    List.find?, List.range', List.isPrefixOf, Except.map, List.count_cons, envAB, aA, impAB, cA, b1B, b2B]

/-- C10 witness: the exact-two-calls fact at the A.md/B.md example. -/
theorem C10_entry_fetched_twice_witness :
    rAB.sourceCalls.count "/p/A.md" = 2 :=
  C10_entry_fetched_twice.1 envAB "/p/A.md" 20 rAB (by decide) loadAB_eval
